import Mathlib

/-!
Shallow embedding of the Task-Planner scheduling core
(src/schedule_ai.py and src/app.py): feature extraction, slot scoring
(classifier path and rule-based fallback), time normalization, priority
lookup and line-by-line schedule formatting, together with theorems
settling the specification's claims against this embedding.

Modelling conventions:
* Python strings are modelled through their character lists (`String.data`);
  the Python string methods used by the source (`lower`, `upper`, `strip`,
  `split`, `replace`, `count`, substring `in`) are re-implemented below on
  character lists for the ASCII range the program works with.
* Python floats are modelled as exact rationals (`ℚ`).
* A Python exception escaping a function is modelled by `Option` with
  `none` for "the call raises".
* The external collaborators (the sklearn classifier artifacts and the
  generative-model draft) are parameters: the classifier's probability
  output is an optional rational vector (`none` models "no model loaded or
  `predict_proba` failed", exactly the cases where the source returns
  `None`), and the drafted schedule text is a plain string argument.
-/

namespace TaskPlanner

/-- ASCII lowercasing of one character (model of Python `str.lower`). -/
def charLower (c : Char) : Char :=
  if 'A' ≤ c ∧ c ≤ 'Z' then Char.ofNat (c.toNat + 32) else c

/-- ASCII uppercasing of one character (model of Python `str.upper`). -/
def charUpper (c : Char) : Char :=
  if 'a' ≤ c ∧ c ≤ 'z' then Char.ofNat (c.toNat - 32) else c

/-- Model of Python `str.lower`. -/
def pyLower (s : String) : String := ⟨s.data.map charLower⟩

/-- Model of Python `str.upper`. -/
def pyUpper (s : String) : String := ⟨s.data.map charUpper⟩

/-- Model of Python `str.capitalize`: first character uppercased, the rest lowercased. -/
def pyCapitalize (s : String) : String :=
  match s.data with
  | [] => ""
  | c :: cs => ⟨charUpper c :: cs.map charLower⟩

/-- Strip leading and trailing whitespace from a character list. -/
def stripList (cs : List Char) : List Char :=
  ((cs.dropWhile (fun c => c.isWhitespace)).reverse.dropWhile
    (fun c => c.isWhitespace)).reverse

/-- Model of Python `str.strip` with no argument. -/
def pyStrip (s : String) : String := ⟨stripList s.data⟩

/-- Whether `needle` occurs as a contiguous sublist of `hay`. -/
def containsChars (needle : List Char) : List Char → Bool
  | [] => needle.isEmpty
  | c :: cs => needle.isPrefixOf (c :: cs) || containsChars needle cs

/-- Model of Python substring membership `needle in hay`. -/
def containsSub (needle hay : String) : Bool := containsChars needle.data hay.data

/-- Split a character list at every occurrence of `sep` (model of Python
`str.split(sep)`, which yields one piece even for the empty string). -/
def splitOnChar (sep : Char) : List Char → List (List Char)
  | [] => [[]]
  | c :: cs =>
    let r := splitOnChar sep cs
    if c = sep then [] :: r
    else
      match r with
      | [] => [[c]]
      | h :: t => (c :: h) :: t

/-- Model of Python `str.split('\n')`. -/
def splitLines (s : String) : List String :=
  (splitOnChar '\n' s.data).map (fun p => ⟨p⟩)

/-- Split a character list at the first occurrence of `sep`: the part before
it, and (when `sep` occurs) the part after it.  Used to model both
`str.split(sep, 1)` and `str.split(sep)[0]`. -/
def breakAt (sep : Char) : List Char → List Char × Option (List Char)
  | [] => ([], none)
  | c :: cs =>
    if c = sep then ([], some cs)
    else
      let r := breakAt sep cs
      (c :: r.1, r.2)

/-- Model of Python `s.split(':')[0]`: the text before the first colon
(the whole string when there is no colon). -/
def firstField (s : String) : String := ⟨(breakAt ':' s.data).1⟩

/-- Helper for `pyTokens`: whitespace-separated tokens, current token
accumulated in reverse. -/
def tokenizeAux (acc : List Char) : List Char → List (List Char)
  | [] => if acc.isEmpty then [] else [acc.reverse]
  | c :: cs =>
    if c.isWhitespace then
      if acc.isEmpty then tokenizeAux [] cs else acc.reverse :: tokenizeAux [] cs
    else tokenizeAux (c :: acc) cs

/-- Model of Python `str.split()` with no argument: whitespace-run
tokenization with empty pieces discarded. -/
def pyTokens (s : String) : List String := (tokenizeAux [] s.data).map (fun p => ⟨p⟩)

/-- Fuel-driven scan for `countSub` (a nonempty match consumes at least
one character, so fuel equal to the length of the list suffices). -/
def countSubFuel (needle : List Char) : ℕ → List Char → ℕ
  | 0, _ => 0
  | _ + 1, [] => 0
  | fuel + 1, c :: cs =>
    if needle.isPrefixOf (c :: cs) then
      1 + countSubFuel needle fuel (cs.drop (needle.length - 1))
    else countSubFuel needle fuel cs

/-- Model of Python `hay.count(needle)`: number of non-overlapping
occurrences, scanning left to right. -/
def countSub (needle hay : List Char) : ℕ :=
  match needle with
  | [] => hay.length + 1
  | n :: ns => countSubFuel (n :: ns) hay.length hay

/-- Fuel-driven scan for `replaceList` (a nonempty match consumes at
least one character, so fuel equal to the length of the list suffices). -/
def replaceListFuel (old new : List Char) : ℕ → List Char → List Char
  | 0, hay => hay
  | _ + 1, [] => []
  | fuel + 1, c :: cs =>
    if old.isPrefixOf (c :: cs) then
      new ++ replaceListFuel old new fuel (cs.drop (old.length - 1))
    else c :: replaceListFuel old new fuel cs

/-- Model of Python `hay.replace(old, new)`: replace every non-overlapping
occurrence, scanning left to right (the program only replaces the nonempty
patterns `" "` and `"**"`; the empty pattern is passed through). -/
def replaceList (old new hay : List Char) : List Char :=
  match old with
  | [] => hay
  | o :: os => replaceListFuel (o :: os) new hay.length hay

/-- String-level `str.replace(old, new)`. -/
def replaceSub (old new s : String) : String := ⟨replaceList old.data new.data s.data⟩

/-- Numeric value of a digit run. -/
def digitsToNat (ds : List Char) : ℕ :=
  ds.foldl (fun a c => a * 10 + (c.toNat - 48)) 0

/-- Decimal digits of `n` (fuel-driven helper; `natStr` supplies enough fuel). -/
def natStrAux : ℕ → ℕ → List Char
  | 0, _ => []
  | _ + 1, 0 => []
  | fuel + 1, n => natStrAux fuel (n / 10) ++ [Char.ofNat (48 + n % 10)]

/-- Decimal rendering of a natural number. -/
def natStr (n : ℕ) : String := if n = 0 then "0" else ⟨natStrAux (n + 1) n⟩

/-- Decimal rendering of an integer. -/
def intStr (i : ℤ) : String :=
  if i < 0 then "-" ++ natStr (-i).toNat else natStr i.toNat

/-- Rendering of a rational in the formatted header (model of Python's
numeric string interpolation; the exact digits of the float rendering are
immaterial to every claim). -/
def ratStr (q : ℚ) : String :=
  if q.den = 1 then intStr q.num else intStr q.num ++ "/" ++ natStr q.den

/-- Model of Python `f"{hour:02d}"`. -/
def pad2 (n : ℕ) : String := if n < 10 then "0" ++ natStr n else natStr n

/-- Model of Python `int(s)` on a string: optional surrounding whitespace,
optional sign, at least one digit; `none` models `ValueError`. -/
def parseIntStrict (s : String) : Option ℤ :=
  match stripList s.data with
  | '-' :: ds => if ds ≠ [] ∧ ds.all Char.isDigit then some (-(digitsToNat ds : ℤ)) else none
  | '+' :: ds => if ds ≠ [] ∧ ds.all Char.isDigit then some ((digitsToNat ds : ℤ)) else none
  | ds => if ds ≠ [] ∧ ds.all Char.isDigit then some ((digitsToNat ds : ℤ)) else none

/-- Model of `re.search(r'\d+', s)`: the first maximal run of digits. -/
def firstDigitRun (cs : List Char) : Option (List Char) :=
  match cs.dropWhile (fun c => !c.isDigit) with
  | [] => none
  | c :: rest => some ((c :: rest).takeWhile Char.isDigit)

/-- Model of Python `sep.join(pieces)`. -/
def joinWith (sep : String) : List String → String
  | [] => ""
  | [s] => s
  | s :: rest => s ++ sep ++ joinWith sep rest

/-- Model of Python list slicing `l[:n]` with a possibly negative `n`
(`l[:-k]` drops the last `k` elements). -/
def pyTake {α : Type} (n : ℤ) (l : List α) : List α :=
  if 0 ≤ n then l.take n.toNat else l.take (l.length - (-n).toNat)

/-- Model of Python `int(x)` on a number: truncation toward zero
(`Int.tdiv` of the numerator by the denominator). -/
def truncRat (q : ℚ) : ℤ := Int.tdiv q.num q.den

/-- Single match attempt of the annotation regex
`\s*[\[\(][^)\]]*[\]\)]\s*` at the head of the list: greedy whitespace,
an opening bracket, everything up to the first closing bracket, the
closing bracket, greedy trailing whitespace.  Returns what is left after
the match, or `none` when the regex does not match here. -/
def matchAnn (cs : List Char) : Option (List Char) :=
  match cs.dropWhile (fun c => c.isWhitespace) with
  | [] => none
  | c :: cs2 =>
    if c = '[' ∨ c = '(' then
      match cs2.dropWhile (fun d => ¬(d = ')' ∨ d = ']')) with
      | [] => none
      | _ :: cs3 => some (cs3.dropWhile (fun d => d.isWhitespace))
    else none

/-- Fuel-driven scan for `subAnn`.  Every step either consumes one
character or replaces a match that consumes at least two, so fuel equal to
the length of the list is always sufficient and the `0` case is never
reached from `subAnn`. -/
def subAnnFuel : ℕ → List Char → List Char
  | 0, cs => cs
  | _ + 1, [] => []
  | fuel + 1, c :: cs =>
    match matchAnn (c :: cs) with
    | some rest => subAnnFuel fuel rest
    | none => c :: subAnnFuel fuel cs

/-- Model of `re.sub(r'\s*[\[\(][^)\]]*[\]\)]\s*', '', s)` on a character
list: delete every bracketed or parenthesized annotation. -/
def subAnn (cs : List Char) : List Char := subAnnFuel cs.length cs

/-! ## The scheduling core, translated from `src/schedule_ai.py` -/

/-- The deadline keyword list of `extract_features`. -/
def deadline_words : List String := ["deadline", "due", "urgent", "asap", "priority"]

/-- The keyword-category table of `extract_features`, in source order. -/
def keyword_categories : List (String × List String) :=
  [("is_creative", ["design", "create", "develop", "build", "implement"]),
   ("is_analytical", ["analyze", "research", "study", "investigate", "solve"]),
   ("is_planning", ["plan", "organize", "schedule", "coordinate", "arrange"]),
   ("prefers_morning", ["morning", "early", "am"]),
   ("prefers_afternoon", ["afternoon", "lunch", "pm"]),
   ("prefers_evening", ["evening", "night", "late"]),
   ("style_visual", ["visual", "see", "watch", "look"]),
   ("style_auditory", ["listen", "hear", "discuss", "talk"]),
   ("style_kinesthetic", ["practice", "hands-on", "do", "experience"])]

/-- `SimpleScheduler.extract_features`, as the ordered feature mapping the
source builds before handing it to the external pandas/sklearn artifacts
(schema alignment and scaling act on opaque collaborator objects and are
out of scope).  `none` models the `ZeroDivisionError` raised by
`len(unique_words) / len(words)` when the goal text has no tokens.
Membership `kw in unique_words` is membership of the keyword in the list
of tokens (`set(words)` holds exactly the tokens of `words`). -/
def extract_features (goals : String) (available_hours : ℚ) (considerations : String) :
    Option (List (String × ℚ)) :=
  let start_hour := max 6 (24 - available_hours)
  let end_hour := min 22 (start_hour + available_hours)
  let words := pyTokens (pyLower goals)
  let unique_words := words.dedup
  if words.length = 0 then none
  else
    let cl := pyLower considerations
    some
      ([("available_hours", available_hours),
        ("start_hour", start_hour),
        ("end_hour", end_hour),
        ("duration_blocks", available_hours / 2),
        ("task_complexity", (words.length : ℚ) / 10),
        ("task_diversity", (unique_words.length : ℚ) / (words.length : ℚ))]
       ++ keyword_categories.map (fun kc =>
            (kc.1, if kc.2.any (fun kw => words.contains kw || containsSub kw cl)
                   then (1 : ℚ) else 0))
       ++ [("urgency_score",
             ((deadline_words.filter (fun w => containsSub w cl)).length : ℚ) /
               (deadline_words.length : ℚ)),
           ("has_meetings", if containsSub "meeting" cl then (1 : ℚ) else 0),
           ("has_breaks", if containsSub "break" cl then (1 : ℚ) else 0),
           ("meeting_frequency", (countSub "meeting".data cl.data : ℚ))])

/-- Model of `np.clip(x, 0, 1)` on one value. -/
def clip01 (x : ℚ) : ℚ := min (max x 0) 1

/-- Stable descending insertion by score (an earlier element stays in
front of later elements with an equal score, matching Python's stable
`sorted(..., reverse=True)`). -/
def insertDesc (x : ℤ × ℚ) : List (ℤ × ℚ) → List (ℤ × ℚ)
  | [] => [x]
  | y :: ys => if y.2 ≤ x.2 then x :: y :: ys else y :: insertDesc x ys

/-- Stable descending sort by score. -/
def isortDesc : List (ℤ × ℚ) → List (ℤ × ℚ)
  | [] => []
  | x :: xs => insertDesc x (isortDesc xs)

/-- The arithmetic of `SimpleScheduler.predict_optimal_slots` on the
per-hour favorable probabilities: restrict to hours 5..22, apply the
morning boost, afternoon boost and edge penalty multiplicatively, clip to
[0,1], pair with hours, sort descending by adjusted score. -/
def predictCore (probs : List ℚ) : List (ℤ × ℚ) :=
  let valid := ((List.range 24).zip probs).filter (fun hp => decide (5 ≤ hp.1 ∧ hp.1 ≤ 22))
  let adjusted := valid.map (fun hp =>
    let h := hp.1
    let p1 := hp.2 * (if 9 ≤ h ∧ h ≤ 11 then mkRat 12 10 else 1)
    let p2 := p1 * (if 14 ≤ h ∧ h ≤ 16 then mkRat 11 10 else 1)
    let p3 := p2 * (if h < 7 ∨ 20 < h then mkRat 8 10 else 1)
    ((h : ℤ), clip01 p3))
  isortDesc adjusted

/-- `SimpleScheduler.predict_optimal_slots`.  The argument is the
classifier's probability-per-hour output; `none` models every case where
the source returns `None` (no model loaded, empty prediction, or an
exception inside the `try`). -/
def predict_optimal_slots : Option (List ℚ) → Option (List (ℤ × ℚ))
  | none => none
  | some probs => some (predictCore probs)

/-- Keyword-hit count of one preference category against the lowercased
considerations text (`sum(word in considerations_lower for word in keywords)`). -/
def kwCount (kws : List String) (cl : String) : ℕ :=
  (kws.filter (fun k => containsSub k cl)).length

/-- The preferred-start-hour scan of the rule-based fallback: iterate the
`time_preferences` table in source order `{morning: 8, afternoon: 12,
evening: 16}`, keeping the first category whose hit count strictly exceeds
the running maximum; default start hour 9. -/
def prefStart (considerations : String) : ℤ :=
  let cl := pyLower considerations
  ((([(["morning", "early", "am"], (8 : ℤ)),
      (["afternoon", "lunch", "pm"], (12 : ℤ)),
      (["evening", "night", "late"], (16 : ℤ))]).foldl
      (fun (acc : ℤ × ℕ) p =>
        let score := kwCount p.1 cl
        if score > acc.2 then (p.2, score) else acc)
      ((9 : ℤ), (0 : ℕ)))).1

/-- `hours_needed = min(int(available_hours), 12)` from
`generate_dynamic_schedule` (Python `int` truncates toward zero). -/
def hoursNeeded (available_hours : ℚ) : ℤ := min (truncRat available_hours) 12

/-- The per-slot score of the rule-based fallback, i.e. the pointwise
effect of the three `np.where` overrides applied in source order (base
0.7, morning 0.9, afternoon 0.8, then the wrap-aware edge override 0.6;
the last matching override wins). -/
def fallbackScore (hh : ℤ) : ℚ :=
  let p0 : ℚ := mkRat 7 10
  let p1 := if 9 ≤ hh ∧ hh ≤ 11 then mkRat 9 10 else p0
  let p2 := if 14 ≤ hh ∧ hh ≤ 16 then mkRat 8 10 else p1
  if hh < 7 ∨ 20 < hh then mkRat 6 10 else p2

/-- `SimpleScheduler.generate_dynamic_schedule`.  `rfOut` is the
classifier collaborator's output as in `predict_optimal_slots`; `none`
for the whole result models the `ZeroDivisionError` propagating out of
`extract_features`.  The classifier branch renormalizes the selected
top-`hours_needed` slots when their total is positive; the fallback
branch scores `hours_needed` consecutive wrapped hours from the preferred
start hour. -/
def generate_dynamic_schedule (rfOut : Option (List ℚ)) (goals : String)
    (available_hours : ℚ) (considerations : String) : Option (List (ℤ × ℚ)) :=
  match extract_features goals available_hours considerations with
  | none => none
  | some _ =>
    match predict_optimal_slots rfOut with
    | none =>
      let start_hour := prefStart considerations
      some ((List.range (hoursNeeded available_hours).toNat).map (fun i : ℕ =>
        ((start_hour + (i : ℤ)) % 24, fallbackScore ((start_hour + (i : ℤ)) % 24))))
    | some slots0 =>
      let top := pyTake (hoursNeeded available_hours) slots0
      let total := (top.map Prod.snd).sum
      some (if total > 0 then top.map (fun s => (s.1, s.2 / total)) else top)

/-- The threshold part of `SimpleScheduler._get_priority`: scan the scored
slots for the first entry at the queried hour and classify its score. -/
def prioLoop (hour : ℤ) : List (ℤ × ℚ) → Option String
  | [] => none
  | s :: rest =>
    if s.1 = hour then
      some (if mkRat 7 10 ≤ s.2 then "HIGH"
            else if mkRat 4 10 ≤ s.2 then "MEDIUM" else "LOW")
    else prioLoop hour rest

/-- The static time-of-day rule of `SimpleScheduler._get_priority`. -/
def staticPriority (hour : ℤ) : String :=
  if 9 ≤ hour ∧ hour ≤ 11 then "HIGH"
  else if 14 ≤ hour ∧ hour ≤ 16 then "HIGH"
  else if hour < 8 ∨ 20 < hour then "LOW"
  else "MEDIUM"

/-- `SimpleScheduler._get_priority` (the `if slots:` guard in the source
is subsumed by the loop returning nothing on an empty list). -/
def getPriority (hour : ℤ) (slots : List (ℤ × ℚ)) : String :=
  (prioLoop hour slots).getD (staticPriority hour)

/-- `SimpleScheduler._format_time`.  Note that the source rebinds
`time_str` to its space-stripped uppercased form before the marker test,
and returns that rebound value on the no-marker path and on the
`re.search` failure path. -/
def format_time (time_str : String) : String :=
  let t := pyUpper (replaceSub " " "" time_str)
  if containsSub "AM" t || containsSub "PM" t then
    match firstDigitRun (breakAt ':' t.data).1 with
    | none => t
    | some ds =>
      let hour := digitsToNat ds
      let hour2 := if containsSub "PM" t ∧ hour ≠ 12 then hour + 12
                   else if containsSub "AM" t ∧ hour = 12 then 0 else hour
      pad2 hour2 ++ ":00"
  else t

/-- `process_time_block` from `SimpleScheduler._format_output`: split at
the first colon, normalize the time, strip bracketed annotations from the
task, parse the hour (falling back to 9 on `ValueError`), annotate with
the capitalized priority.  Every internal failure is handled, so the
function is total. -/
def processTimeBlock (line : String) (time_slots : List (ℤ × ℚ)) : String :=
  match breakAt ':' line.data with
  | (_, none) => line
  | (before, some after) =>
    let time_str := format_time ⟨before⟩
    let task := pyStrip ⟨subAnn after⟩
    let hour : ℤ := (parseIntStrict (firstField time_str)).getD 9
    let priority := getPriority hour time_slots
    time_str ++ " - " ++ task ++ " (" ++ pyCapitalize priority ++ ")"

/-- The drop guard of the formatting loop:
`if not line or "[Continue" in line or "rest" in line.lower()`. -/
def dropRule (l : String) : Bool :=
  (l == "") || containsSub "[Continue" l || containsSub "rest" (pyLower l)

/-- The upper-case day names used by `_format_output`. -/
def days : List String :=
  ["MONDAY", "TUESDAY", "WEDNESDAY", "THURSDAY", "FRIDAY", "SATURDAY", "SUNDAY"]

/-- One iteration of the `_format_output` loop: the lines contributed to
`formatted_lines` by one raw line (the dead `current_section` assignments
in the source are omitted, as nothing reads them).  A processed time-block
line is appended only when it differs from the original line; the
`except` around `process_time_block` is unreachable because the function
handles its failures internally. -/
def processLine (slots : List (ℤ × ℚ)) (rawLine : String) : List String :=
  let l := pyStrip rawLine
  if dropRule l then []
  else if containsSub "QUARTER" (pyUpper l) then ["", l]
  else if containsSub "WEEK" (pyUpper l) && containsSub "-" l then
    ["", pyStrip (replaceSub "**" "" l)]
  else if days.any (fun d => containsSub d (pyUpper l)) then
    ["", pyCapitalize (pyStrip (firstField l))]
  else if containsSub ":" l then
    (if processTimeBlock l slots = l then [] else [processTimeBlock l slots])
  else if !(containsSub "*" l || containsSub "[" l || containsSub "]" l) then [l]
  else []

/-- The body lines of `_format_output`: strip the draft, split into lines,
process each. -/
def formatBody (schedule : String) (slots : List (ℤ × ℚ)) : List String :=
  (splitLines (pyStrip schedule)).flatMap (processLine slots)

/-- The fixed header block of `_format_output`. -/
def headerStr (duration goals : String) (available_hours : ℚ) (considerations : String) :
    String :=
  joinWith "\n"
    ["Schedule Overview", "----------------",
     "Duration: " ++ duration,
     "Goals: " ++ goals,
     "Hours per day: " ++ ratStr available_hours,
     "Notes: " ++ considerations,
     "----------------\n"]

/-- `SimpleScheduler._format_output`. -/
def format_output (schedule duration goals : String) (available_hours : ℚ)
    (considerations : String) (time_slots : List (ℤ × ℚ)) : String :=
  headerStr duration goals available_hours considerations ++
    joinWith "\n" (formatBody schedule time_slots)

/-- `SimpleScheduler.generate_schedule`, with the prompt construction and
the generative-model call abstracted into the `draft` argument (the
collaborator's response text); `none` propagates the feature-extraction
failure. -/
def generate_schedule (rfOut : Option (List ℚ)) (draft duration goals : String)
    (available_hours : ℚ) (considerations : String) : Option String :=
  (generate_dynamic_schedule rfOut goals available_hours considerations).map
    (fun time_slots =>
      format_output draft duration goals available_hours considerations time_slots)

/-- `create_schedule` from `src/app.py`: required-field check on the three
text inputs (no check on the hours value), then the pipeline; the
catch-all turns a propagated exception into an error string. -/
def create_schedule (rfOut : Option (List ℚ)) (draft duration goals : String)
    (available_hours : ℚ) (considerations : String) : String :=
  if duration = "" ∨ goals = "" ∨ considerations = "" then
    "Error: Please fill in all fields"
  else
    match generate_schedule rfOut draft duration goals available_hours considerations with
    | some s => s
    | none => "Error: division by zero"

/-! ## Helper lemmas -/

/-- Truncation toward zero of a nonnegative rational is nonnegative. -/
theorem truncRat_nonneg {q : ℚ} (h : 0 ≤ q) : 0 ≤ truncRat q :=
  Int.tdiv_nonneg (Rat.num_nonneg.mpr h) (by positivity)

/-- Truncation toward zero of a nonnegative rational is at most the rational. -/
theorem truncRat_cast_le {q : ℚ} (h : 0 ≤ q) : ((truncRat q : ℤ) : ℚ) ≤ q := by
  have hd : (0 : ℤ) < (q.den : ℤ) := by exact_mod_cast q.pos
  have hn : 0 ≤ q.num := Rat.num_nonneg.mpr h
  have he : truncRat q = q.num / (q.den : ℤ) := Int.tdiv_eq_ediv hn (le_of_lt hd)
  have key : truncRat q * (q.den : ℤ) ≤ q.num := by
    rw [he]; exact Int.ediv_mul_le _ (ne_of_gt hd)
  have hdQ : (0 : ℚ) < (q.den : ℚ) := by exact_mod_cast q.pos
  calc ((truncRat q : ℤ) : ℚ) ≤ (q.num : ℚ) / (q.den : ℚ) := by
        rw [le_div_iff₀ hdQ]; exact_mod_cast key
    _ = q := Rat.num_div_den q

/-- Clipped scores always land in the unit interval. -/
theorem clip01_mem (x : ℚ) : 0 ≤ clip01 x ∧ clip01 x ≤ 1 :=
  ⟨le_min (le_max_right _ _) zero_le_one, min_le_right _ _⟩

/-- Membership is preserved by the descending insertion. -/
theorem mem_insertDesc {x a : ℤ × ℚ} {l : List (ℤ × ℚ)} :
    x ∈ insertDesc a l ↔ x = a ∨ x ∈ l := by
  induction l with
  | nil => simp [insertDesc]
  | cons y ys ih =>
    by_cases hc : y.2 ≤ a.2 <;> simp [insertDesc, hc, ih, List.mem_cons] <;> tauto

/-- Membership is preserved by the descending sort. -/
theorem mem_isortDesc {x : ℤ × ℚ} {l : List (ℤ × ℚ)} : x ∈ isortDesc l ↔ x ∈ l := by
  induction l with
  | nil => simp [isortDesc]
  | cons a l ih => simp [isortDesc, mem_insertDesc, ih, List.mem_cons]

/-- Dividing every mapped score by `t` divides the mapped sum by `t`. -/
theorem sum_map_div (l : List (ℤ × ℚ)) (t : ℚ) :
    (l.map (fun s => s.2 / t)).sum = (l.map Prod.snd).sum / t := by
  induction l with
  | nil => simp
  | cons a l ih => simp [ih, add_div]

/-- An option that is `isSome` equals `some` of its `getD`. -/
theorem isSome_eq_some_getD {α : Type} {o : Option α} (d : α) (h : o.isSome = true) :
    o = some (o.getD d) := by
  cases o with
  | none => cases h
  | some a => rfl

/-- The priority loop is the first-match lookup followed by the
threshold classification. -/
theorem prioLoop_eq_find (hour : ℤ) (slots : List (ℤ × ℚ)) :
    prioLoop hour slots = (slots.find? (fun s => s.1 == hour)).map
      (fun e => if mkRat 7 10 ≤ e.2 then "HIGH"
                else if mkRat 4 10 ≤ e.2 then "MEDIUM" else "LOW") := by
  induction slots with
  | nil => rfl
  | cons a l ih =>
    by_cases hEq : a.1 = hour
    · have hb : (a.1 == hour) = true := beq_iff_eq.mpr hEq
      simp [prioLoop, List.find?, hEq, hb]
    · have hb : (a.1 == hour) = false := beq_eq_false_iff_ne.mpr hEq
      simp [prioLoop, List.find?, hEq, hb, ih]

/-! ## Claim theorems -/

/-- C1 counterexample: the malformed colon-containing line `garbage::::`
does not appear as the literal original line in the formatted output;
the formatter emits the transformed line `GARBAGE - ::: (High)` instead. -/
theorem C1_counterexample :
    formatBody "garbage::::" [] = ["GARBAGE - ::: (High)"] ∧
    ¬ ("garbage::::" ∈ formatBody "garbage::::" []) := by decide

/-- C1 (amended): a colon-containing line that survives the drop rule and
the header classifications never raises (`processTimeBlock` is total) and
is never passed through as the literal original line: the processed line
is emitted when it differs from the original, and the line is omitted
entirely when processing returns it unchanged.  `garbage::::` in
particular is emitted in transformed form. -/
theorem C1_theorem (slots : List (ℤ × ℚ)) (line : String)
    (h1 : dropRule (pyStrip line) = false)
    (h2 : containsSub "QUARTER" (pyUpper (pyStrip line)) = false)
    (h3 : (containsSub "WEEK" (pyUpper (pyStrip line)) && containsSub "-" (pyStrip line)) = false)
    (h4 : days.any (fun d => containsSub d (pyUpper (pyStrip line))) = false)
    (h5 : containsSub ":" (pyStrip line) = true) :
    processLine slots line =
      (if processTimeBlock (pyStrip line) slots = pyStrip line then []
       else [processTimeBlock (pyStrip line) slots]) := by
  simp [processLine, h1, h2, h3, h4, h5]

/-- C1 witness: the amended behavior at the concrete line `garbage::::`. -/
theorem C1_witness :
    processLine [] "garbage::::" =
      (if processTimeBlock (pyStrip "garbage::::") [] = pyStrip "garbage::::" then []
       else [processTimeBlock (pyStrip "garbage::::") []]) :=
  C1_theorem [] "garbage::::" (by decide) (by decide) (by decide) (by decide) (by decide)

/-- C2 counterexample: at `available_hours = 3/2` (inside `(0, 24]`) the
fallback generates one slot, but `min(available_hours, 12) = 3/2 ≠ 1`,
refuting `hours_needed = min(available_hours, 12)` as stated. -/
theorem C2_counterexample :
    generate_dynamic_schedule none "work" (mkRat 3 2) "" = some [((9 : ℤ), mkRat 9 10)] ∧
    0 < mkRat 3 2 ∧ mkRat 3 2 ≤ 24 ∧
    ¬ ((1 : ℚ) = min (mkRat 3 2) 12) := by decide

/-- C2 (amended): for `available_hours ∈ (0, 24]`,
`hours_needed = min(int(available_hours), 12)` where `int` truncates, the
slot count never exceeds `hours_needed` (which is at most
`min(available_hours, 12)`), and on the fallback path exactly
`hours_needed` slots are produced, consecutive from the preferred start
hour wrapping modulo 24. -/
theorem C2_theorem (h : ℚ) (goals cons : String) (rfOut : Option (List ℚ))
    (slots : List (ℤ × ℚ)) (h0 : 0 < h) (_h24 : h ≤ 24)
    (hg : generate_dynamic_schedule rfOut goals h cons = some slots) :
    slots.length ≤ (hoursNeeded h).toNat ∧
    ((hoursNeeded h).toNat : ℚ) ≤ min h 12 ∧
    (rfOut = none →
      slots.length = (hoursNeeded h).toNat ∧
      ∀ i (hi : i < slots.length),
        slots.get ⟨i, hi⟩ =
          ((prefStart cons + (i : ℤ)) % 24, fallbackScore ((prefStart cons + (i : ℤ)) % 24))) := by
  have hn0 : 0 ≤ hoursNeeded h :=
    le_min (truncRat_nonneg (le_of_lt h0)) (by norm_num)
  have hcast : ((hoursNeeded h).toNat : ℚ) ≤ min h 12 := by
    have e1 : (((hoursNeeded h).toNat : ℤ) : ℚ) = ((hoursNeeded h : ℤ) : ℚ) := by
      rw [Int.toNat_of_nonneg hn0]
    have e2 : ((hoursNeeded h : ℤ) : ℚ) ≤ min h 12 := by
      unfold hoursNeeded
      push_cast
      exact min_le_min (truncRat_cast_le (le_of_lt h0)) (le_refl _)
    calc ((hoursNeeded h).toNat : ℚ) = (((hoursNeeded h).toNat : ℤ) : ℚ) := by push_cast; ring
      _ ≤ min h 12 := e1 ▸ e2
  cases rfOut with
  | none =>
    unfold generate_dynamic_schedule at hg
    cases hx : extract_features goals h cons with
    | none => rw [hx] at hg; simp at hg
    | some f =>
      rw [hx] at hg
      simp only [predict_optimal_slots, Option.some.injEq] at hg
      subst hg
      refine ⟨by simp, hcast, fun _ => ⟨by simp, ?_⟩⟩
      intro i hi
      simp [List.get_eq_getElem]
  | some probs =>
    unfold generate_dynamic_schedule at hg
    cases hx : extract_features goals h cons with
    | none => rw [hx] at hg; simp at hg
    | some f =>
      rw [hx] at hg
      simp only [predict_optimal_slots, Option.some.injEq] at hg
      refine ⟨?_, hcast, fun hcon => by cases hcon⟩
      have htake : (pyTake (hoursNeeded h) (predictCore probs)).length ≤ (hoursNeeded h).toNat := by
        unfold pyTake
        rw [if_pos hn0]
        simp [List.length_take]
      rw [← hg]
      split
      · simpa using htake
      · exact htake

/-- C2 witness: the amended statement at `available_hours = 5` on the
fallback path. -/
theorem C2_witness :
    ((generate_dynamic_schedule none "work" 5 "").getD []).length ≤ (hoursNeeded 5).toNat := by
  have h := C2_theorem 5 "work" "" none ((generate_dynamic_schedule none "work" 5 "").getD [])
    (by norm_num) (by norm_num) (by decide)
  exact h.1

/-- C3 counterexample: `Interesting work` contains no continuation marker
and no whole word `rest`, yet the drop rule discards it (the code matches
`rest` as a substring of `interesting`). -/
theorem C3_counterexample :
    dropRule "Interesting work" = true ∧
    processLine [] "Interesting work" = [] ∧
    containsSub "[Continue" "Interesting work" = false ∧
    ¬ ("rest" ∈ pyTokens (pyLower "Interesting work")) := by decide

/-- C3 (amended): a non-empty line is dropped by the continuation/rest
rule exactly when it contains the case-sensitive marker `[Continue` or
contains `rest` as a case-insensitive substring (also inside longer
words). -/
theorem C3_theorem (l : String) (hne : l ≠ "") :
    dropRule l = (containsSub "[Continue" l || containsSub "rest" (pyLower l)) := by
  unfold dropRule
  have hb : (l == "") = false := by simpa using hne
  rw [hb, Bool.false_or]

/-- C3 witness: the amended drop rule at a concrete non-empty line. -/
theorem C3_witness :
    dropRule "abc" = (containsSub "[Continue" "abc" || containsSub "rest" (pyLower "abc")) :=
  C3_theorem "abc" (by decide)

/-- C4: on whitespace-only goal text the token list is empty, and the
diversity division is not guarded: feature extraction fails (models the
`ZeroDivisionError` of `len(unique_words) / len(words)`) and the failure
propagates out of schedule generation instead of yielding
`task_diversity = 0`. -/
theorem C4_theorem :
    extract_features "   " 8 "meetings at 10am" = none ∧
    generate_dynamic_schedule none "   " 8 "meetings at 10am" = none := by decide

/-- C5 counterexample: with an evening preference and five hours the
fallback scores the slot at wrapped hour 20 with 0.7, although 20 lies
outside `[7, 20)`; so such slots do not always score 0.6 (the code's edge
test is `hour < 7 or hour > 20`, which leaves hour 20 at base score). -/
theorem C5_counterexample :
    generate_dynamic_schedule none "work" 5 "evening" =
      some [((16 : ℤ), mkRat 8 10), (17, mkRat 7 10), (18, mkRat 7 10),
            (19, mkRat 7 10), (20, mkRat 7 10)] ∧
    ¬ ((7 : ℤ) ≤ 20 ∧ (20 : ℤ) < 20) ∧
    ¬ (mkRat 7 10 = mkRat 6 10) := by decide

/-- C5 (amended): fallback overrides are applied morning, afternoon, then
edge, with the last match winning; wrapped hours in 9-11 or 14-16 score
strictly above the 0.7 base; wrapped hours with `hour < 7` or `hour > 20`
always score 0.6; wrapped hour 20 itself keeps the 0.7 base score. -/
theorem C5_theorem (hh : ℤ) :
    ((9 ≤ hh ∧ hh ≤ 11) ∨ (14 ≤ hh ∧ hh ≤ 16) → mkRat 7 10 < fallbackScore hh) ∧
    (hh < 7 ∨ 20 < hh → fallbackScore hh = mkRat 6 10) ∧
    (hh = 20 → fallbackScore hh = mkRat 7 10) := by
  refine ⟨?_, ?_, ?_⟩
  · rintro (⟨ha, hb⟩ | ⟨ha, hb⟩) <;>
      · simp only [fallbackScore]
        split_ifs <;> first | omega | decide
  · intro hedge
    simp only [fallbackScore]
    split_ifs <;> first | omega | decide
  · rintro rfl
    decide

/-- C5 witness: the amended score facts at concrete wrapped hours. -/
theorem C5_witness :
    mkRat 7 10 < fallbackScore 10 ∧ fallbackScore 21 = mkRat 6 10 ∧
    fallbackScore 20 = mkRat 7 10 :=
  ⟨(C5_theorem 10).1 (Or.inl (by decide)), (C5_theorem 21).2.1 (Or.inr (by decide)),
   (C5_theorem 20).2.2 rfl⟩

/-- C6 counterexample: the no-marker time text `break` is not passed
through unchanged — the function returns its space-stripped uppercased
form `BREAK`. -/
theorem C6_counterexample :
    format_time "break" = "BREAK" ∧ ¬ ("BREAK" = "break") := by decide

/-- C6 (amended): with an AM/PM marker the time is rendered zero-padded
(`2pm` to `14:00`, `12am` to `00:00`); without a marker the function
returns the space-stripped uppercased text (so already-canonical inputs
such as `9:00` are unchanged, but not arbitrary text). -/
theorem C6_theorem :
    format_time "2pm" = "14:00" ∧ format_time "12am" = "00:00" ∧
    format_time "9:00" = "9:00" ∧
    ∀ s : String,
      containsSub "AM" (pyUpper (replaceSub " " "" s)) = false →
      containsSub "PM" (pyUpper (replaceSub " " "" s)) = false →
      format_time s = pyUpper (replaceSub " " "" s) := by
  refine ⟨by decide, by decide, by decide, ?_⟩
  intro s hA hP
  simp [format_time, hA, hP]

/-- C6 witness: the amended no-marker clause at a concrete canonical input. -/
theorem C6_witness :
    format_time "10:30" = pyUpper (replaceSub " " "" "10:30") :=
  C6_theorem.2.2.2 "10:30" (by decide) (by decide)

/-- C7: with `available_hours = 0` (and also `-3`) and all text fields
non-empty, the pipeline does not reject the request: it returns a
formatted schedule (header plus annotated body, no error text) instead of
a descriptive error. -/
theorem C7_theorem :
    containsSub "Error" (create_schedule none "9am: review" "1 week" "work" 0 "none") = false ∧
    containsSub "Schedule Overview"
      (create_schedule none "9am: review" "1 week" "work" 0 "none") = true ∧
    containsSub "09:00 - review (High)"
      (create_schedule none "9am: review" "1 week" "work" 0 "none") = true ∧
    containsSub "Error" (create_schedule none "9am: review" "1 week" "work" (-3) "none") = false ∧
    containsSub "Schedule Overview"
      (create_schedule none "9am: review" "1 week" "work" (-3) "none") = true := by decide

/-- C8: classifier-path scores are clipped into `[0,1]`; when the sum over
the selected top-`hours_needed` slots is positive the emitted scores are
renormalized to sum to 1, otherwise they are passed through; and the
fallback path's scores are exactly the raw override values, never
renormalized. -/
theorem C8_theorem (probs : List ℚ) (goals cons : String) (h : ℚ) :
    (∀ s ∈ predictCore probs, 0 ≤ s.2 ∧ s.2 ≤ 1) ∧
    (∀ slots, generate_dynamic_schedule (some probs) goals h cons = some slots →
      (((pyTake (hoursNeeded h) (predictCore probs)).map Prod.snd).sum > 0 →
        (slots.map Prod.snd).sum = 1) ∧
      (¬ ((pyTake (hoursNeeded h) (predictCore probs)).map Prod.snd).sum > 0 →
        slots = pyTake (hoursNeeded h) (predictCore probs))) ∧
    (∀ slots, generate_dynamic_schedule none goals h cons = some slots →
      ∀ s ∈ slots, s.2 = fallbackScore s.1) := by
  refine ⟨?_, ?_, ?_⟩
  · intro s hs
    unfold predictCore at hs
    rw [mem_isortDesc] at hs
    rcases List.mem_map.mp hs with ⟨hp, _, rfl⟩
    exact clip01_mem _
  · intro slots hg
    unfold generate_dynamic_schedule at hg
    cases hx : extract_features goals h cons with
    | none => rw [hx] at hg; simp at hg
    | some f =>
      rw [hx] at hg
      simp only [predict_optimal_slots, Option.some.injEq] at hg
      by_cases hpos : ((pyTake (hoursNeeded h) (predictCore probs)).map Prod.snd).sum > 0
      · rw [if_pos hpos] at hg
        refine ⟨fun _ => ?_, fun hcon => absurd hpos hcon⟩
        rw [← hg, List.map_map]
        have hcomp :
            (Prod.snd ∘ fun s : ℤ × ℚ =>
              (s.1, s.2 / ((pyTake (hoursNeeded h) (predictCore probs)).map Prod.snd).sum)) =
            fun s : ℤ × ℚ =>
              s.2 / ((pyTake (hoursNeeded h) (predictCore probs)).map Prod.snd).sum := rfl
        rw [hcomp, sum_map_div]
        exact div_self (ne_of_gt hpos)
      · rw [if_neg hpos] at hg
        exact ⟨fun hcon => absurd hcon hpos, fun _ => hg.symm⟩
  · intro slots hg
    unfold generate_dynamic_schedule at hg
    cases hx : extract_features goals h cons with
    | none => rw [hx] at hg; simp at hg
    | some f =>
      rw [hx] at hg
      simp only [predict_optimal_slots, Option.some.injEq] at hg
      intro s hs
      rw [← hg] at hs
      rcases List.mem_map.mp hs with ⟨i, _, rfl⟩
      rfl

/-- C8 witness: clipping, positive-sum renormalization, and raw fallback
scores at concrete inputs. -/
theorem C8_witness :
    (0 ≤ clip01 ((mkRat 1 2 * 1 * 1) * mkRat 8 10) ∧
      clip01 ((mkRat 1 2 * 1 * 1) * mkRat 8 10) ≤ 1) ∧
    (((generate_dynamic_schedule (some (List.replicate 6 (mkRat 1 2))) "work" 8 "").getD
        []).map Prod.snd).sum = 1 ∧
    mkRat 9 10 = fallbackScore 9 := by
  refine ⟨?_, ?_, ?_⟩
  · exact (C8_theorem (List.replicate 6 (mkRat 1 2)) "work" "" 8).1
      ((5 : ℤ), clip01 ((mkRat 1 2 * 1 * 1) * mkRat 8 10))
      (by rw [show predictCore (List.replicate 6 (mkRat 1 2)) =
            [((5 : ℤ), clip01 ((mkRat 1 2 * 1 * 1) * mkRat 8 10))] from rfl]
          exact List.mem_singleton.mpr rfl)
  · have hg : generate_dynamic_schedule (some (List.replicate 6 (mkRat 1 2))) "work" 8 "" =
        some ((generate_dynamic_schedule
          (some (List.replicate 6 (mkRat 1 2))) "work" 8 "").getD []) :=
      isSome_eq_some_getD [] (by decide)
    have hpos : ((pyTake (hoursNeeded 8)
        (predictCore (List.replicate 6 (mkRat 1 2)))).map Prod.snd).sum > 0 := by
      rw [show ((pyTake (hoursNeeded 8)
            (predictCore (List.replicate 6 (mkRat 1 2)))).map Prod.snd) =
          [clip01 ((mkRat 1 2 * 1 * 1) * mkRat 8 10)] from rfl]
      rw [List.sum_cons, List.sum_nil, add_zero]
      have hv : (0 : ℚ) < (mkRat 1 2 * 1 * 1) * mkRat 8 10 := by
        rw [Rat.mkRat_eq_div, Rat.mkRat_eq_div]
        norm_num
      exact lt_min (lt_of_lt_of_le hv (le_max_left _ _)) one_pos
    exact ((C8_theorem (List.replicate 6 (mkRat 1 2)) "work" "" 8).2.1 _ hg).1 hpos
  · exact (C8_theorem (List.replicate 6 (mkRat 1 2)) "work" "" 5).2.2
      ((generate_dynamic_schedule none "work" 5 "").getD [])
      (isSome_eq_some_getD [] (by decide))
      ((9 : ℤ), mkRat 9 10) (by decide)

/-- C9: when the scored-slot sequence contains an entry at the queried
hour, the returned priority is the fixed-threshold classification of the
first such entry's score (HIGH at or above 0.7, MEDIUM at or above 0.4,
LOW below); the static time-of-day rule is used exactly when no entry
matches. -/
theorem C9_theorem (hour : ℤ) (slots : List (ℤ × ℚ)) :
    (∀ e, slots.find? (fun s => s.1 == hour) = some e →
      getPriority hour slots =
        (if mkRat 7 10 ≤ e.2 then "HIGH"
         else if mkRat 4 10 ≤ e.2 then "MEDIUM" else "LOW")) ∧
    (slots.find? (fun s => s.1 == hour) = none →
      getPriority hour slots = staticPriority hour) := by
  constructor
  · intro e he
    unfold getPriority
    rw [prioLoop_eq_find, he]
    rfl
  · intro hne
    unfold getPriority
    rw [prioLoop_eq_find, hne]
    rfl

/-- C9 witness: a matching slot with score 0.5 at hour 9 yields MEDIUM. -/
theorem C9_witness : getPriority 9 [((9 : ℤ), mkRat 1 2)] = "MEDIUM" := by
  have hfirst := (C9_theorem 9 [((9 : ℤ), mkRat 1 2)]).1 ((9 : ℤ), mkRat 1 2) (by decide)
  rw [hfirst]
  decide

/-- C10 counterexample: `Quarter 1: monday review` contains a weekday
name as a case-insensitive substring, yet the formatter classifies it as
a quarter header (re-emitting the whole line), not as a day header
reduced to the capitalized text before the first colon. -/
theorem C10_counterexample :
    processLine [] "Quarter 1: monday review" = ["", "Quarter 1: monday review"] ∧
    containsSub "MONDAY" (pyUpper "Quarter 1: monday review") = true ∧
    ¬ (processLine [] "Quarter 1: monday review" =
        ["", pyCapitalize (pyStrip (firstField "Quarter 1: monday review"))]) := by decide

/-- C10 (amended): a line that survives the drop rule and is not
classified as a quarter or week header, and contains a weekday name as a
case-insensitive substring, is emitted as a blank line followed by the
capitalized stripped text before its first colon, and never reaches the
time-block path. -/
theorem C10_theorem (slots : List (ℤ × ℚ)) (line : String)
    (h1 : dropRule (pyStrip line) = false)
    (h2 : containsSub "QUARTER" (pyUpper (pyStrip line)) = false)
    (h3 : (containsSub "WEEK" (pyUpper (pyStrip line)) && containsSub "-" (pyStrip line)) = false)
    (h4 : days.any (fun d => containsSub d (pyUpper (pyStrip line))) = true) :
    processLine slots line = ["", pyCapitalize (pyStrip (firstField (pyStrip line)))] := by
  simp [processLine, h1, h2, h3, h4]

/-- C10 witness: the amended day-header behavior at a concrete line. -/
theorem C10_witness :
    processLine [] "MONDAY: tasks" =
      ["", pyCapitalize (pyStrip (firstField (pyStrip "MONDAY: tasks")))] :=
  C10_theorem [] "MONDAY: tasks" (by decide) (by decide) (by decide) (by decide)

end TaskPlanner
